import Mathlib

/-!
Verification of the CineMatch repository (recommender.py, app.py) against its
natural-language specification.  The Python source is shallowly embedded:
pure fragments become Lean functions on List / Int / Rat, the module-level
caches of app.py become explicit state passing, and fallible code returns
Option / Except.  Floating point rating arithmetic is modelled over the
rationals; the cosine-similarity values produced by
sklearn cosine_similarity are modelled as an arbitrary rational-valued
function of the two item indices, since no verified claim depends on the
numeric value of a similarity.  numpy negative infinity is modelled as the
bottom element of WithBot Rat.
-/

namespace CineMatch

/-! ### Python string primitives (modelled on the character list) -/

/-- Python str.lower restricted to the character map used here. -/
def pyLower (s : String) : List Char :=
  s.data.map Char.toLower

/-- Python substring containment needle in hay (empty needle always matches). -/
def pyContains (hay needle : List Char) : Bool :=
  match hay with
  | [] => needle.isEmpty
  | _ :: t => needle.isPrefixOf hay || pyContains t needle

/-- Python str.isdigit for ASCII digit strings: nonempty and all digits. -/
def pyIsDigit (s : String) : Bool :=
  !s.data.isEmpty && s.data.all Char.isDigit

/-- Decimal value of a digit character list. -/
def digitsVal (cs : List Char) : Nat :=
  cs.foldl (fun acc c => acc * 10 + (c.toNat - 48)) 0

/-- Python int(str): optional sign followed by at least one ASCII digit.
Surrounding whitespace and underscores are not modelled; every
theorem below only feeds it trimmed literals. -/
def pyInt (s : String) : Option Int :=
  match s.data with
  | [] => none
  | '-' :: rest =>
      if !rest.isEmpty && rest.all Char.isDigit then
        some (-(digitsVal rest : Int))
      else none
  | '+' :: rest =>
      if !rest.isEmpty && rest.all Char.isDigit then
        some ((digitsVal rest : Int))
      else none
  | cs =>
      if cs.all Char.isDigit then some ((digitsVal cs : Int)) else none

/-- Python int(float(str)) as used on the year column: an optional sign, an
integer digit part, an optional dot with fractional digits, truncated toward
zero.  Exponent forms and inf/nan are not modelled (they never denote a
year); anything else fails with none, which the source turns into record
exclusion via its except branch. -/
def pyFloatInt (s : String) : Option Int :=
  let core : List Char → Option Nat := fun cs =>
    match cs.span Char.isDigit with
    | (intPart, rest) =>
      match rest with
      | [] => if intPart.isEmpty then none else some (digitsVal intPart)
      | '.' :: fracPart =>
          if fracPart.all Char.isDigit && !(intPart.isEmpty && fracPart.isEmpty) then
            some (digitsVal intPart)
          else none
      | _ => none
  match s.data with
  | '-' :: rest => (core rest).map (fun n => -(n : Int))
  | '+' :: rest => (core rest).map (fun n => (n : Int))
  | cs => (core cs).map (fun n => (n : Int))

/-- Python list slicing index resolution: negative indices count from the
end, everything is clamped into the list. -/
def pySliceIdx (len : Nat) (i : Int) : Nat :=
  if i < 0 then (len - (-i).toNat) else min i.toNat len

/-- Python l[start:stop]. -/
def pySlice {α : Type} (l : List α) (start stop : Int) : List α :=
  (l.take (pySliceIdx l.length stop)).drop (pySliceIdx l.length start)

/-- Python l[-k:]: for k = 0 the whole list (the a[-0:] quirk), otherwise
the last k elements, clamped to the whole list when k exceeds the length. -/
def pyLastSlice {α : Type} (l : List α) (k : Nat) : List α :=
  if k = 0 then l else l.drop (l.length - k)

/-- Lexicographic order on character lists, modelling Python str comparison
by code point. -/
def lexLe : List Char → List Char → Bool
  | [], _ => true
  | _ :: _, [] => false
  | a :: as, b :: bs => if a = b then lexLe as bs else decide (a < b)

/-! ### Shared numeric helpers -/

/-- Round half to even on the rationals, modelling the numpy and pandas
rounding rule used by Series.round. -/
def roundHalfEven (x : ℚ) : ℤ :=
  let f := ⌊x⌋
  let r := x - (f : ℚ)
  if r < 1/2 then f
  else if 1/2 < r then f + 1
  else if Even f then f else f + 1

/-- pandas Series.round(2). -/
def round2 (x : ℚ) : ℚ :=
  (roundHalfEven (x * 100) : ℚ) / 100

/-- np.abs on the rationals, written so that it evaluates by kernel
reduction. -/
def ratAbs (x : ℚ) : ℚ :=
  if x < 0 then -x else x

/-! ### Data model (recommender.py) -/

/-- One row of ratings.csv as loaded by _load_ratings. -/
structure RatingRow where
  userId : Int
  movieId : Int
  rating : ℚ
  deriving DecidableEq, Repr

/-- One row of the cleaned metadata table produced by _load_movies. -/
structure MovieRow where
  movieId : Int
  title : String
  year : String
  genres : String
  posterUrl : String
  deriving DecidableEq, Repr

/-- The loaded engine state of ItemCFRecommender: the ratings table, the
cleaned metadata table, and the cosine-similarity kernel.  sim idx j models
cosine_similarity(user_item.T[idx], user_item.T).flatten()[j]; the claims
verified here hold for every value of this kernel, so it is kept abstract. -/
structure Engine where
  ratings : List RatingRow
  movies : List MovieRow
  sim : Nat → Nat → ℚ

/-- np.sort(series.unique()): the distinct values in ascending order
(insertionSort is a stable sort, as is the sort of numpy and Python). -/
def sortedUnique (l : List Int) : List Int :=
  List.insertionSort (fun a b => a ≤ b) l.dedup

/-- self.movie_ids: distinct movieIds of the ratings table, ascending. -/
def movieIdsOf (e : Engine) : List Int :=
  sortedUnique (e.ratings.map (·.movieId))

/-- self.id2idx: position of a movieId in the ascending distinct list. -/
def id2idx (e : Engine) (mid : Int) : Option Nat :=
  (movieIdsOf e).findIdx? (fun x => x == mid)

/-- self.idx2id with the out-of-range default never reached by the source. -/
def idx2id (e : Engine) (i : Nat) : Int :=
  (movieIdsOf e).getD i 0

/-- The ratings of one movie, in table order. -/
def ratingsOf (e : Engine) (mid : Int) : List ℚ :=
  (e.ratings.filter (fun r => r.movieId == mid)).map (·.rating)

/-- self.avg_rating: per-movie mean rating rounded to two decimals, absent
for a movieId with no rating row (pandas groupby produces no group). -/
def avgRatingOf (e : Engine) (mid : Int) : Option ℚ :=
  let rs := ratingsOf e mid
  if rs.isEmpty then none
  else some (round2 (rs.sum / (rs.length : ℚ)))

def PLACEHOLDER_URL : String := "/static/posters/placeholder.jpg"

/-- A hydrated item as returned by _meta_for: metadata plus average rating,
plus the predicted score when the caller passed one. -/
structure Item where
  movieId : Int
  title : String
  year : String
  genres : String
  avgRating : ℚ
  posterUrl : String
  score : Option (WithBot ℚ)
  deriving DecidableEq, Repr

/-- _meta_for: hydrate each id that is present in the cleaned metadata
table, silently skipping the rest; the score list is indexed by the
position of the id in the input enumeration. -/
def metaFor (e : Engine) (ids : List Int) (scores : Option (List (WithBot ℚ))) :
    List Item :=
  (ids.enum).filterMap (fun p =>
    match e.movies.find? (fun m => m.movieId == p.2) with
    | none => none
    | some meta => some
        { movieId := p.2
          title := meta.title
          year := meta.year
          genres := meta.genres
          avgRating := (avgRatingOf e p.2).getD 0
          posterUrl := if meta.posterUrl = "" then PLACEHOLDER_URL else meta.posterUrl
          score := scores.map (fun sc => sc.getD p.1 ⊥) })

/-- all_movies. -/
def allMoviesOf (e : Engine) : List Item :=
  metaFor e (movieIdsOf e) none

/-- numpy default_rng(seed).choice(ids, size=n, replace=False): raises when
n exceeds the population size, otherwise returns n distinct elements of the
population.  The pseudorandom selection itself (PCG64 stream) is modelled
as the first n ids; every verified claim depends only on membership and on
the size guard. -/
def npChoice (ids : List Int) (n : Nat) : Except String (List Int) :=
  if n ≤ ids.length then .ok (ids.take n)
  else .error "Cannot take a larger sample than population when replace is False"

/-- sample_movies. -/
def sampleMoviesOf (e : Engine) (n : Nat) : Except String (List Item) :=
  (npChoice (movieIdsOf e) n).map (fun ids => metaFor e ids none)

/-! ### recommend_for_new_user, staged as in the source -/

/-- One rating pair of the request body. -/
structure RatingPair where
  movieId : Int
  rating : ℚ
  deriving DecidableEq, Repr

/-- The similarity row sims = cosine_similarity(user_item.T[idx], user_item.T)
materialized over all n items. -/
def simRow (e : Engine) (idx n : Nat) : List ℚ :=
  (List.range n).map (fun j => e.sim idx j)

/-- The body of the accumulation loop: scores gathers sims * r, sim_sums
gathers abs sims; a pair whose movieId is unknown is skipped. -/
def scoresStep (e : Engine) (n : Nat) (acc : List ℚ × List ℚ) (p : RatingPair) :
    List ℚ × List ℚ :=
  match id2idx e p.movieId with
  | none => acc
  | some idx =>
      (acc.1.zipWith (· + ·) ((simRow e idx n).map (· * p.rating)),
       acc.2.zipWith (· + ·) ((simRow e idx n).map (fun s => ratAbs s)))

/-- The accumulation loop over the rating list, starting from the two
zero vectors. -/
def scoresSims (e : Engine) (rl : List RatingPair) : List ℚ × List ℚ :=
  let n := (movieIdsOf e).length
  rl.foldl (scoresStep e n) (List.replicate n 0, List.replicate n 0)

/-- np.divide(scores, sim_sums, out=np.zeros_like(scores),
where=sim_sums != 0): elementwise guarded division, 0 where the
denominator is 0. -/
def npDivideWhere (scores sims : List ℚ) : List ℚ :=
  scores.zipWith (fun s d => if d ≠ 0 then s / d else 0) sims

/-- preds before exclusion. -/
def predsRaw (e : Engine) (rl : List RatingPair) : List ℚ :=
  npDivideWhere (scoresSims e rl).1 (scoresSims e rl).2

/-- rated_idx: the item indices referenced by the input pairs that are
known to the matrix (set semantics: only membership is ever used). -/
def ratedIdx (e : Engine) (rl : List RatingPair) : List Nat :=
  rl.filterMap (fun p => id2idx e p.movieId)

/-- preds after the expression preds[list(rated_idx)] = -np.inf: rated
entries become bottom, the rest are finite. -/
def predsEx (e : Engine) (rl : List RatingPair) : List (WithBot ℚ) :=
  (predsRaw e rl).enum.map
    (fun p => if (ratedIdx e rl).contains p.1 then (⊥ : WithBot ℚ) else (p.2 : WithBot ℚ))

/-- Entry lookup used by argsort on the preds vector. -/
def predAt (e : Engine) (rl : List RatingPair) (i : Nat) : WithBot ℚ :=
  (predsEx e rl).getD i ⊥

/-- np.argsort(preds): the indices 0..n-1 sorted ascending by entry.
numpy argsort is modelled as a stable ascending sort (the tie order of
numpy on the verified concrete inputs, where introsort degenerates to
insertion sort). -/
def argsortPreds (e : Engine) (rl : List RatingPair) : List Nat :=
  List.insertionSort (fun i j => predAt e rl i ≤ predAt e rl j)
    (List.range (predsEx e rl).length)

/-- top_idx = np.argsort(preds)[-top_n:][::-1]. -/
def topIdx (e : Engine) (rl : List RatingPair) (topN : Nat) : List Nat :=
  (pyLastSlice (argsortPreds e rl) topN).reverse

/-- recommend_for_new_user: raises below min_rated, otherwise scores,
excludes, ranks, maps indices back to ids and hydrates with the per-item
predicted scores attached. -/
def recommendForNewUser (e : Engine) (rl : List RatingPair)
    (topN : Nat := 10) (minRated : Nat := 6) : Except String (List Item) :=
  if rl.length < minRated then
    .error ("Need at least " ++ toString minRated ++ " ratings")
  else
    let ti := topIdx e rl topN
    let topIds := ti.map (idx2id e)
    .ok (metaFor e topIds (some (ti.map (predAt e rl))))

/-! ### app.py: catalog filtering, sorting, pagination -/

/-- safe_year of the sort branch: int(float(year)) with unparsable treated
as 0. -/
def safeYear (m : Item) : Int :=
  (pyFloatInt m.year).getD 0

/-- safe_year_filter, closed over the year query string: parse the record
year, then dispatch on the query form in source order; any parse failure
lands in the except branch and excludes the record. -/
def safe_year_filter (yearQ : String) (m : Item) : Bool :=
  match pyFloatInt m.year with
  | none => false
  | some y =>
    if pyLower yearQ = "older".data then decide (y < 2000)
    else if pyIsDigit yearQ then
      match pyInt yearQ with
      | some v => decide (y = v)
      | none => false
    else if yearQ.data.take 2 = ">=".data then
      match pyInt (yearQ.drop 2) with
      | some v => decide (v ≤ y)
      | none => false
    else if yearQ.data.take 2 = "<=".data then
      match pyInt (yearQ.drop 2) with
      | some v => decide (y ≤ v)
      | none => false
    else false

/-- The three filter comprehensions of slice_page, in source order; an
empty query string is falsy and skips its filter. -/
def applyFilters (titleQ genreQ yearQ : String) (ms : List Item) : List Item :=
  let s1 := if titleQ ≠ "" then
      ms.filter (fun m => pyContains (pyLower m.title) titleQ.data) else ms
  let s2 := if genreQ ≠ "" then
      s1.filter (fun m => pyContains (pyLower m.genres) genreQ.data) else s1
  if yearQ ≠ "" then s2.filter (safe_year_filter yearQ) else s2

/-- The sorting block of slice_page: Python list.sort is stable; reverse
sorting is modelled by flipping the key comparison, which matches the
stable descending semantics of sort(reverse=True). -/
def sortStep (sortBy order : String) (ms : List Item) : List Item :=
  let rev := order = "desc"
  if sortBy = "rating" then
    if rev then List.insertionSort (fun a b => b.avgRating ≤ a.avgRating) ms
    else List.insertionSort (fun a b => a.avgRating ≤ b.avgRating) ms
  else if sortBy = "year" then
    if rev then List.insertionSort (fun a b => safeYear b ≤ safeYear a) ms
    else List.insertionSort (fun a b => safeYear a ≤ safeYear b) ms
  else if sortBy = "title" then
    if rev then List.insertionSort (fun a b => lexLe (pyLower b.title) (pyLower a.title) = true) ms
    else List.insertionSort (fun a b => lexLe (pyLower a.title) (pyLower b.title) = true) ms
  else ms

/-- The pure core of slice_page on an already selected movie list:
filter, sort, paginate. -/
def slicePageCompute (titleQ genreQ yearQ sortBy order : String)
    (page perPage : Int) (ms : List Item) : List Item × Nat :=
  let sorted := sortStep sortBy order (applyFilters titleQ genreQ yearQ ms)
  let start := (page - 1) * perPage
  (pySlice sorted start (start + perPage), sorted.length)

/-- The argument tuple of the memoized slice_page. -/
structure QueryKey where
  sample : String
  search : String
  genre : String
  year : String
  sortBy : String
  order : String
  page : Int
  perPage : Int
  deriving DecidableEq, Repr

/-- The immutable inputs behind the module caches: what
rec_engine.all_movies() and rec_engine.sample_movies(k) return. -/
structure AppEnv where
  allBase : List Item
  sampleBase : Int → Except String (List Item)

/-- The AppEnv produced by a loaded engine. -/
def appEnvOf (e : Engine) : AppEnv :=
  { allBase := allMoviesOf e
    sampleBase := fun k =>
      if k < 0 then .error "negative dimensions are not allowed"
      else sampleMoviesOf e k.toNat }

/-- The module-level mutable state of app.py: the ALL_MOVIES list object,
the SAMPLE_CACHE dictionary, and the lru_cache of slice_page. -/
structure ServerState where
  allMovies : List Item
  sampleCache : List (Int × List Item)
  lru : List (QueryKey × (List Item × Nat))
  deriving DecidableEq, Repr

/-- The empty state at module import. -/
def ServerState.init : ServerState := ⟨[], [], []⟩

/-- get_sample: lazily build and cache the full list or the per-size
sample; a sample string that is neither "all" nor an int literal, or a
failing sample draw, raises out of the call (none) and caches nothing. -/
def getSample (env : AppEnv) (sample : String) (s : ServerState) :
    Option (List Item) × ServerState :=
  if sample = "all" then
    if s.allMovies.isEmpty then (some env.allBase, { s with allMovies := env.allBase })
    else (some s.allMovies, s)
  else
    match pyInt sample with
    | none => (none, s)
    | some k =>
      match s.sampleCache.lookup k with
      | some v => (some v, s)
      | none =>
        match env.sampleBase k with
        | .error _ => (none, s)
        | .ok v => (some v, { s with sampleCache := (k, v) :: s.sampleCache })

/-- True when no filter narrows the list: in that case the sort of
slice_page runs in place on the shared list object returned by
get_sample, so the re-sorted list is written back into the module cache. -/
def noFilters (key : QueryKey) : Bool :=
  key.search = "" && key.genre = "" && key.year = ""

/-- Write the (possibly in-place re-sorted) shared list back to the slot
it was served from. -/
def writeBack (sample : String) (newList : List Item) (s : ServerState) : ServerState :=
  if sample = "all" then { s with allMovies := newList }
  else
    match pyInt sample with
    | none => s
    | some k =>
        let updated := s.sampleCache.map (fun kv => if kv.1 == k then (k, newList) else kv)
        { s with sampleCache := updated }

/-- functools lru_cache capacity of slice_page. -/
def LRU_CAPACITY : Nat := 1024

/-- slice_page as decorated with lru_cache(maxsize=1024): on a hit the
cached pair is returned and the entry moves to most-recent position; on a
miss the body runs (observing and possibly mutating the shared module
lists) and the result is inserted, evicting the least recently used entry
beyond capacity. -/
def slicePage (env : AppEnv) (key : QueryKey) (s : ServerState) :
    Option (List Item × Nat) × ServerState :=
  match s.lru.lookup key with
  | some v => (some v, { s with lru := (key, v) :: s.lru.eraseP (fun kv => kv.1 == key) })
  | none =>
    match getSample env key.sample s with
    | (none, s1) => (none, s1)
    | (some mvs, s1) =>
      let sorted := sortStep key.sortBy key.order
        (applyFilters key.search key.genre key.year mvs)
      let start := (key.page - 1) * key.perPage
      let result := (pySlice sorted start (start + key.perPage), sorted.length)
      let s2 := if noFilters key then writeBack key.sample sorted s1 else s1
      (some result, { s2 with lru := ((key, result) :: s2.lru).take LRU_CAPACITY })

/-- movies_route page clamp: max(int(page), 1). -/
def routePage (p : Int) : Int := max p 1

/-- movies_route page size clamp: max(min(per_page, 200), 1). -/
def routePerPage (pp : Int) : Int := max (min pp 200) 1

/-- A whole request sequence against the module state. -/
def runQueries (env : AppEnv) (keys : List QueryKey) (s : ServerState) : ServerState :=
  keys.foldl (fun st k => (slicePage env k st).2) s

/-! ### Interaction matrix construction (recommender __init__) -/

/-- rows = self.ratings["userId"].astype("int32").values - 1: the dense
row index of each rating row is the raw userId minus one. -/
def userRows (e : Engine) : List Int :=
  e.ratings.map (fun r => r.userId - 1)

/-- cols = self.ratings["movieId"].map(self.id2idx).values. -/
def itemCols (e : Engine) : List (Option Nat) :=
  e.ratings.map (fun r => id2idx e r.movieId)

/-- n_users = self.ratings["userId"].max(); the csr matrix shape is
(n_users, len(movie_ids)). -/
def matrixShape (e : Engine) : Int × Nat :=
  ((e.ratings.map (·.userId)).foldl max 0, (movieIdsOf e).length)

/-- Modelled from the spec: the user index assignment the specification
prescribes for InteractionMatrix.build, namely the rank of the userId in
the ascending list of distinct userIds.  This definition follows the
specification wording and exists only to be compared against the
source-derived userRows. -/
def specUserIndex (e : Engine) (uid : Int) : Option Nat :=
  (sortedUnique (e.ratings.map (·.userId))).findIdx? (fun x => x == uid)

/-- The user row indices the specification would assign, aligned with the
rating rows. -/
def specUserRows (e : Engine) : List (Option Nat) :=
  e.ratings.map (fun r => specUserIndex e r.userId)

/-! ### Generic helper lemmas -/

lemma lookup_eq_none_of_not_mem_keys {α β : Type} [DecidableEq α]
    {a : α} : ∀ {l : List (α × β)}, a ∉ l.map Prod.fst → List.lookup a l = none := by
  intro l
  induction l with
  | nil => intro _; rfl
  | cons kv t ih =>
      intro h
      rw [List.map_cons, List.mem_cons, not_or] at h
      have hne : (a == kv.1) = false := by
        simp only [beq_eq_false_iff_ne, ne_eq]
        exact h.1
      calc List.lookup a (kv :: t) = List.lookup a ((kv.1, kv.2) :: t) := rfl
        _ = none := by rw [List.lookup_cons]; simp only [hne]; exact ih h.2

lemma lookup_some_mem {α β : Type} [DecidableEq α]
    {a : α} {v : β} : ∀ {l : List (α × β)}, List.lookup a l = some v → (a, v) ∈ l := by
  intro l
  induction l with
  | nil => intro h; simp [List.lookup] at h
  | cons kv t ih =>
      intro h
      have h2 : List.lookup a ((kv.1, kv.2) :: t) = some v := h
      rw [List.lookup_cons] at h2
      by_cases hak : a = kv.1
      · have : (a == kv.1) = true := by simp [hak]
        rw [this] at h2
        simp only [Option.some.injEq] at h2
        subst hak; subst h2
        exact List.mem_cons_self _ _
      · have : (a == kv.1) = false := by simp [hak]
        rw [this] at h2
        exact List.mem_cons_of_mem _ (ih h2)

lemma findIdx?_some_spec {α : Type} (p : α → Bool) :
    ∀ (l : List α) (i k : Nat), l.findIdx? p k = some i →
      k ≤ i ∧ ∃ x, l.get? (i - k) = some x ∧ p x = true := by
  intro l
  induction l with
  | nil => intro i k h; simp [List.findIdx?] at h
  | cons a t ih =>
      intro i k h
      rw [List.findIdx?_cons] at h
      by_cases hp : p a = true
      · rw [if_pos hp] at h
        have hik : k = i := by simpa using h
        subst hik
        exact ⟨le_refl _, a, by simp, hp⟩
      · rw [if_neg hp] at h
        obtain ⟨hki, x, hx, hpx⟩ := ih i (k + 1) h
        refine ⟨by omega, x, ?_, hpx⟩
        have : i - k = (i - (k + 1)) + 1 := by omega
        rw [this]
        simpa using hx

lemma not_sublist_pair_swap {α : Type} {a b : α} :
    ∀ {l : List α}, l.Nodup → a ≠ b → List.Sublist [a, b] l → List.Sublist [b, a] l → False := by
  intro l
  induction l with
  | nil => intro _ _ h _; cases h
  | cons c t ih =>
      intro hnd hab h1 h2
      have hct : c ∉ t := (List.nodup_cons.mp hnd).1
      have hndt : t.Nodup := (List.nodup_cons.mp hnd).2
      cases h1 with
      | cons _ h1t =>
          cases h2 with
          | cons _ h2t => exact ih hndt hab h1t h2t
          | cons₂ _ h2t =>
              exact hct (h1t.subset (List.mem_cons_of_mem a (List.mem_cons_self b [])))
      | cons₂ _ h1t =>
          cases h2 with
          | cons _ h2t =>
              exact hct (h2t.subset (List.mem_cons_of_mem b (List.mem_cons_self a [])))
          | cons₂ _ h2t => exact hab rfl

lemma pairwise_countP_drop {α : Type} {R : α → α → Prop} {p : α → Bool}
    (hmono : ∀ a b, R a b → p a = true → p b = true) :
    ∀ (l : List α) (k : Nat), l.Pairwise R → k ≤ l.countP p →
      ∀ x ∈ l.drop (l.length - k), p x = true := by
  intro l
  induction l with
  | nil => intro k _ _ x hx; simp at hx
  | cons a t ih =>
      intro k hpw hk x hx
      obtain ⟨ha, ht⟩ := List.pairwise_cons.mp hpw
      by_cases hpa : p a = true
      · have hall : ∀ y ∈ a :: t, p y = true := by
          intro y hy
          rcases List.mem_cons.mp hy with rfl | hyt
          · exact hpa
          · exact hmono a y (ha y hyt) hpa
        exact hall x ((List.drop_sublist _ _).subset hx)
      · have hcnt : (a :: t).countP p = t.countP p := by
          rw [List.countP_cons]
          simp [hpa]
        rw [hcnt] at hk
        have hklen : k ≤ t.length := le_trans hk (List.countP_le_length p)
        have harith : (a :: t).length - k = (t.length - k) + 1 := by
          simp only [List.length_cons]; omega
        rw [harith, List.drop_succ_cons] at hx
        exact ih k ht hk x hx

lemma filter_range_single (y : Nat) :
    ∀ n, y < n → (List.range n).filter (fun z => z == y) = [y] := by
  intro n
  induction n with
  | zero => intro h; omega
  | succ m ih =>
      intro h
      rw [List.range_succ, List.filter_append]
      by_cases hy : y < m
      · rw [ih hy]
        have : ((m : Nat) == y) = false := by
          simp only [beq_eq_false_iff_ne, ne_eq]; omega
        simp [this]
      · have hym : y = m := by omega
        subst hym
        have hnil : (List.range y).filter (fun z => z == y) = [] := by
          rw [List.filter_eq_nil_iff]
          intro a ha
          have : a < y := List.mem_range.mp ha
          simp only [beq_iff_eq]; omega
        simp [hnil]

lemma filter_range_pair (y x : Nat) (hyx : y < x) :
    ∀ n, x < n → (List.range n).filter (fun z => z == y || z == x) = [y, x] := by
  intro n
  induction n with
  | zero => intro h; omega
  | succ m ih =>
      intro h
      rw [List.range_succ, List.filter_append]
      by_cases hx : x < m
      · rw [ih hx]
        have h1 : ((m : Nat) == y) = false := by
          simp only [beq_eq_false_iff_ne, ne_eq]; omega
        have h2 : ((m : Nat) == x) = false := by
          simp only [beq_eq_false_iff_ne, ne_eq]; omega
        simp [h1, h2]
      · have hxm : x = m := by omega
        subst hxm
        have hcongr : (List.range x).filter (fun z => z == y || z == x)
            = (List.range x).filter (fun z => z == y) := by
          apply List.filter_congr
          intro a ha
          have : a < x := List.mem_range.mp ha
          have : (a == x) = false := by
            simp only [beq_eq_false_iff_ne, ne_eq]; omega
          simp [this]
        rw [hcongr, filter_range_single y x hyx]
        simp

lemma take_cons_take {α : Type} (n : Nat) (x : α) (L : List α) :
    List.take n (x :: List.take n L) = List.take n (x :: L) := by
  cases n with
  | zero => simp
  | succ m =>
      simp only [List.take_succ_cons]
      rw [List.take_take]
      have hmin : m ⊓ (m + 1) = m := inf_eq_left.mpr (by omega)
      rw [hmin]

/-! ### Concrete fixtures used by counterexamples and witnesses -/

/-- A cleaned metadata row with fixed year, genre and poster fields. -/
def mkMovieRow (i : Int) (t : String) : MovieRow :=
  ⟨i, t, "1999", "Drama", "http://x"⟩

/-- Two movies, one user; both movies share the average rating 4 and the
titles sort in the opposite order of the catalog order. -/
def twoMovieEngine : Engine :=
  { ratings := [⟨1, 1, 4⟩, ⟨1, 2, 4⟩]
    movies := [mkMovieRow 1 "b", mkMovieRow 2 "a"]
    sim := fun _ _ => 1 }

/-- Six rating pairs covering both movies of twoMovieEngine. -/
def sixPairsBoth : List RatingPair :=
  List.replicate 3 (⟨1, 5⟩ : RatingPair) ++ List.replicate 3 (⟨2, 5⟩ : RatingPair)

/-- Three movies, one user, constant similarity kernel: rating only the
first movie gives the two remaining movies identical predicted scores. -/
def threeMovieEngine : Engine :=
  { ratings := [⟨1, 1, 4⟩, ⟨1, 2, 4⟩, ⟨1, 3, 4⟩]
    movies := [mkMovieRow 1 "a", mkMovieRow 2 "b", mkMovieRow 3 "c"]
    sim := fun _ _ => 1 }

/-- Six rating pairs all for the first movie of threeMovieEngine. -/
def sixPairsOne : List RatingPair :=
  List.replicate 6 (⟨1, 4⟩ : RatingPair)

/-- Two users with ids 1 and 5: the raw-identifier row assignment leaves a
gap, the rank-based assignment does not. -/
def gapUserEngine : Engine :=
  { ratings := [⟨1, 10, 5⟩, ⟨5, 20, 4⟩]
    movies := []
    sim := fun _ _ => 0 }

/-- A catalog item carrying only a year string, for year-filter probes. -/
def yearProbe (y : String) : Item :=
  ⟨1, "t", y, "g", 0, "u", none⟩

lemma toLower_eq_self_of_isDigit (c : Char) (h : c.isDigit = true) : c.toLower = c := by
  have h2 : c.val ≤ 57 := by
    simp only [Char.isDigit, Bool.and_eq_true, decide_eq_true_eq] at h
    exact h.2
  have h3 : c.toNat ≤ 57 := h2
  unfold Char.toLower
  have : ¬(c.toNat ≥ 65 ∧ c.toNat ≤ 90) := by omega
  simp [this]

section MainResults

attribute [local semireducible] Rat.add Rat.mul Rat.inv Rat.sub

/-! ### Length invariants of the scoring pipeline -/

lemma scoresStep_length (e : Engine) (n : Nat) (acc : List ℚ × List ℚ)
    (p : RatingPair) (h1 : acc.1.length = n) (h2 : acc.2.length = n) :
    (scoresStep e n acc p).1.length = n ∧ (scoresStep e n acc p).2.length = n := by
  unfold scoresStep
  cases id2idx e p.movieId with
  | none => exact ⟨h1, h2⟩
  | some idx =>
      constructor <;>
        simp [List.length_zipWith, simRow, h1, h2]

lemma scoresSims_length (e : Engine) (rl : List RatingPair) :
    (scoresSims e rl).1.length = (movieIdsOf e).length
    ∧ (scoresSims e rl).2.length = (movieIdsOf e).length := by
  unfold scoresSims
  generalize hn : (movieIdsOf e).length = n
  suffices h : ∀ (l : List RatingPair) (acc : List ℚ × List ℚ),
      acc.1.length = n → acc.2.length = n →
      (l.foldl (scoresStep e n) acc).1.length = n
        ∧ (l.foldl (scoresStep e n) acc).2.length = n by
    exact h rl _ (by simp) (by simp)
  intro l
  induction l with
  | nil => intro acc h1 h2; exact ⟨h1, h2⟩
  | cons p t ih =>
      intro acc h1 h2
      simp only [List.foldl_cons]
      obtain ⟨hs1, hs2⟩ := scoresStep_length e n acc p h1 h2
      exact ih _ hs1 hs2

lemma predsRaw_length (e : Engine) (rl : List RatingPair) :
    (predsRaw e rl).length = (movieIdsOf e).length := by
  unfold predsRaw npDivideWhere
  rw [List.length_zipWith, (scoresSims_length e rl).1, (scoresSims_length e rl).2]
  simp

lemma predsEx_length (e : Engine) (rl : List RatingPair) :
    (predsEx e rl).length = (movieIdsOf e).length := by
  unfold predsEx
  rw [List.length_map, List.enum_length, predsRaw_length]

/-! ### C3 -/

/-- C3: for every rating list of length at least minRated and every valid
item index j, the predicted score equals scores j divided by sim_sums j
when sim_sums j is nonzero and is exactly 0 when sim_sums j is zero;
every entry of the preds vector is defined (the vector has full length n
and the division branch is only taken on a nonzero denominator). -/
theorem similarity_score_divide_guard (e : Engine) (rl : List RatingPair)
    (minRated j : Nat) (hlen : minRated ≤ rl.length)
    (hj : j < (movieIdsOf e).length) :
    (predsRaw e rl).length = (movieIdsOf e).length
    ∧ (predsRaw e rl).getD j 0
        = (if (scoresSims e rl).2.getD j 0 = 0 then 0
           else (scoresSims e rl).1.getD j 0 / (scoresSims e rl).2.getD j 0)
    ∧ ((scoresSims e rl).2.getD j 0 = 0 → (predsRaw e rl).getD j 0 = 0) := by
  have hlenP := predsRaw_length e rl
  have hs := scoresSims_length e rl
  have hjp : j < (predsRaw e rl).length := by rw [hlenP]; exact hj
  have hj1 : j < (scoresSims e rl).1.length := by rw [hs.1]; exact hj
  have hj2 : j < (scoresSims e rl).2.length := by rw [hs.2]; exact hj
  have hgetp : (predsRaw e rl).getD j 0 = (predsRaw e rl)[j] := by
    rw [List.getD_eq_getElem?_getD, List.getElem?_eq_getElem hjp]
    rfl
  have hget1 : (scoresSims e rl).1.getD j 0 = (scoresSims e rl).1[j] := by
    rw [List.getD_eq_getElem?_getD, List.getElem?_eq_getElem hj1]
    rfl
  have hget2 : (scoresSims e rl).2.getD j 0 = (scoresSims e rl).2[j] := by
    rw [List.getD_eq_getElem?_getD, List.getElem?_eq_getElem hj2]
    rfl
  have hmain : (predsRaw e rl)[j]
      = (if (scoresSims e rl).2[j] = 0 then 0
         else (scoresSims e rl).1[j] / (scoresSims e rl).2[j]) := by
    have : (predsRaw e rl)[j]
        = (fun s d => if d ≠ 0 then s / d else 0) ((scoresSims e rl).1[j])
            ((scoresSims e rl).2[j]) := by
      unfold predsRaw npDivideWhere at hjp ⊢
      exact @List.getElem_zipWith _ _ _ _ _ _ _ hjp
    rw [this]
    by_cases hd : (scoresSims e rl).2[j] = 0 <;> simp [hd]
  refine ⟨hlenP, ?_, ?_⟩
  · rw [hgetp, hget1, hget2, hmain]
  · intro hz
    rw [hgetp, hmain]
    rw [hget2] at hz
    simp [hz]

/-- Witness for C3 at a concrete engine, rating list and index. -/
theorem similarity_score_divide_guard_witness :
    (predsRaw threeMovieEngine sixPairsOne).length
        = (movieIdsOf threeMovieEngine).length
    ∧ (predsRaw threeMovieEngine sixPairsOne).getD 1 0
        = (if (scoresSims threeMovieEngine sixPairsOne).2.getD 1 0 = 0 then 0
           else (scoresSims threeMovieEngine sixPairsOne).1.getD 1 0
             / (scoresSims threeMovieEngine sixPairsOne).2.getD 1 0)
    ∧ ((scoresSims threeMovieEngine sixPairsOne).2.getD 1 0 = 0 →
        (predsRaw threeMovieEngine sixPairsOne).getD 1 0 = 0) :=
  similarity_score_divide_guard threeMovieEngine sixPairsOne 6 1
    (by decide) (by decide)

/-! ### C5 -/

/-- C5: recommend_for_new_user raises exactly when the raw rating list has
fewer than minRated entries, before any filtering of unknown ids, and on
that path it raises the insufficient-input message; the engine state is an
immutable input of the embedded function, so a rejected call leaves it
untouched for later calls. -/
theorem insufficient_input_check (e : Engine) (rl : List RatingPair)
    (topN minRated : Nat) :
    ((∃ msg, recommendForNewUser e rl topN minRated = .error msg)
        ↔ rl.length < minRated)
    ∧ (rl.length < minRated →
        recommendForNewUser e rl topN minRated
          = .error ("Need at least " ++ toString minRated ++ " ratings")) := by
  unfold recommendForNewUser
  by_cases h : rl.length < minRated
  · simp [h]
  · simp [h]

/-- Witness for C5: a six-element rating list referencing only unknown
movieIds is not rejected (raw length counts), and an empty list is. -/
theorem insufficient_input_check_witness :
    ¬ ((List.replicate 6 (⟨999, 5⟩ : RatingPair)).length < 6)
    ∧ recommendForNewUser twoMovieEngine [] 10 6 = .error "Need at least 6 ratings" :=
  ⟨by decide,
   (insufficient_input_check twoMovieEngine [] 10 6).2 (by decide)⟩

/-! ### C10 -/

/-- C10: sample_movies raises exactly when the requested sample size
exceeds the number of distinct movieIds of the ratings table, with the
numpy larger-sample-than-population error, instead of truncating or
padding. -/
theorem oversized_sample_raises (e : Engine) (n : Nat) :
    ((movieIdsOf e).length = (e.ratings.map (·.movieId)).dedup.length)
    ∧ ((∃ msg, sampleMoviesOf e n = .error msg)
        ↔ (movieIdsOf e).length < n)
    ∧ ((movieIdsOf e).length < n →
        sampleMoviesOf e n
          = .error "Cannot take a larger sample than population when replace is False") := by
  refine ⟨?_, ?_, ?_⟩
  · unfold movieIdsOf sortedUnique
    exact (List.perm_insertionSort _ _).length_eq
  · unfold sampleMoviesOf npChoice
    by_cases h : n ≤ (movieIdsOf e).length
    · simp only [if_pos h, Except.map]
      constructor
      · rintro ⟨msg, hmsg⟩
        cases hmsg
      · intro hlt; omega
    · simp only [if_neg h, Except.map]
      constructor
      · intro _; omega
      · intro _; exact ⟨_, rfl⟩
  · intro h
    unfold sampleMoviesOf npChoice
    have : ¬ n ≤ (movieIdsOf e).length := by omega
    simp [this, Except.map]

/-- Witness for C10: asking threeMovieEngine, which has three distinct
rated movieIds, for a four-movie sample raises. -/
theorem oversized_sample_raises_witness :
    sampleMoviesOf threeMovieEngine 4
      = .error "Cannot take a larger sample than population when replace is False" :=
  (oversized_sample_raises threeMovieEngine 4).2.2 (by decide)

/-! ### C4 -/

lemma take2_shape {cs : List Char} {c1 c2 : Char} (h : cs.take 2 = [c1, c2]) :
    ∃ t, cs = c1 :: c2 :: t := by
  cases cs with
  | nil => simp at h
  | cons a tl =>
      cases tl with
      | nil => simp at h
      | cons b t =>
          simp only [List.take_succ_cons, List.take_zero] at h
          have h1 : a = c1 := by
            have := congrArg (fun l => l.headD 'x') h
            simpa using this
          have h2 : b = c2 := by
            have := congrArg (fun l => (l.drop 1).headD 'x') h
            simpa using this
          exact ⟨t, by rw [h1, h2]⟩

lemma lower_ne_older {q : String} {c : Char} {rest : List Char}
    (hq : q.data = c :: rest) (hc : c.toLower ≠ 'o') :
    pyLower q ≠ "older".data := by
  unfold pyLower
  rw [hq]
  intro h
  have hod : "older".data = ['o', 'l', 'd', 'e', 'r'] := rfl
  rw [hod] at h
  simp only [List.map_cons, List.cons.injEq] at h
  exact hc h.1

lemma isdigit_false_of_head {q : String} {c : Char} {rest : List Char}
    (hq : q.data = c :: rest) (hc : c.isDigit = false) :
    pyIsDigit q = false := by
  unfold pyIsDigit
  rw [hq]
  simp [hc]

lemma lower_ne_older_of_isDigit {q : String} (h : pyIsDigit q = true) :
    pyLower q ≠ "older".data := by
  unfold pyIsDigit at h
  cases hq : q.data with
  | nil => rw [hq] at h; simp at h
  | cons c rest =>
      rw [hq] at h
      simp only [Bool.and_eq_true, List.all_cons] at h
      have hcd : c.isDigit = true := h.2.1
      apply lower_ne_older hq
      rw [toLower_eq_self_of_isDigit c hcd]
      intro hco
      rw [hco] at hcd
      exact absurd hcd (by decide)

/-- C4: the year filter implements the four query forms: the literal
older token selects strictly pre-2000 years, a digit string selects the
exact year, a greater-equal form is an inclusive lower bound, a
less-equal form an inclusive upper bound; a record whose year string does
not parse is excluded without raising on every query. -/
theorem year_filter_forms (m : Item) (q : String) :
    (pyFloatInt m.year = none → safe_year_filter q m = false)
    ∧ (∀ y : Int, pyFloatInt m.year = some y →
        ((pyLower q = "older".data → (safe_year_filter q m = true ↔ y < 2000))
        ∧ (pyIsDigit q = true → ∀ v : Int, pyInt q = some v →
            (safe_year_filter q m = true ↔ y = v))
        ∧ (q.data.take 2 = ">=".data → ∀ v : Int, pyInt (q.drop 2) = some v →
            (safe_year_filter q m = true ↔ v ≤ y))
        ∧ (q.data.take 2 = "<=".data → ∀ v : Int, pyInt (q.drop 2) = some v →
            (safe_year_filter q m = true ↔ y ≤ v)))) := by
  constructor
  · intro hnone
    unfold safe_year_filter
    rw [hnone]
  · intro y hy
    refine ⟨?_, ?_, ?_, ?_⟩
    · intro holder
      unfold safe_year_filter
      simp only [hy]
      rw [if_pos holder]
      simp
    · intro hdig v hv
      have hnold := lower_ne_older_of_isDigit hdig
      unfold safe_year_filter
      simp only [hy]
      rw [if_neg hnold, if_pos hdig, hv]
      simp
    · intro hge v hv
      obtain ⟨t, hq⟩ := take2_shape hge
      have hnold : pyLower q ≠ "older".data :=
        lower_ne_older hq (by decide)
      have hndig : pyIsDigit q = false :=
        isdigit_false_of_head hq (by decide)
      unfold safe_year_filter
      simp only [hy]
      rw [if_neg hnold, hndig, if_neg (by simp), if_pos hge, hv]
      simp
    · intro hle v hv
      obtain ⟨t, hq⟩ := take2_shape hle
      have hnold : pyLower q ≠ "older".data :=
        lower_ne_older hq (by decide)
      have hndig : pyIsDigit q = false :=
        isdigit_false_of_head hq (by decide)
      have hnge : ¬ q.data.take 2 = ">=".data := by
        rw [hq]
        intro hcontra
        simp only [List.take_succ_cons, List.take_zero] at hcontra
        exact absurd hcontra (by decide)
      unfold safe_year_filter
      simp only [hy]
      rw [if_neg hnold, hndig, if_neg (by simp), if_neg hnge, if_pos hle, hv]
      simp

/-- Witness for C4 at the boundary instances named by the claim: year
1999 matches the older token and the inclusive upper bound 1999 but not
the lower bound 2000; year 2000 matches the lower bound 2000 but not the
older token; an unparsable year is excluded. -/
theorem year_filter_forms_witness :
    safe_year_filter "older" (yearProbe "1999") = true
    ∧ safe_year_filter "<=1999" (yearProbe "1999") = true
    ∧ ¬ (safe_year_filter ">=2000" (yearProbe "1999") = true)
    ∧ safe_year_filter ">=2000" (yearProbe "2000") = true
    ∧ ¬ (safe_year_filter "older" (yearProbe "2000") = true)
    ∧ safe_year_filter "1999" (yearProbe "abc") = false := by
  refine ⟨?_, ?_, ?_, ?_, ?_, ?_⟩
  · exact (((year_filter_forms (yearProbe "1999") "older").2 1999
      (by decide)).1 (by decide)).mpr (by decide)
  · exact (((year_filter_forms (yearProbe "1999") "<=1999").2 1999
      (by decide)).2.2.2 (by decide) 1999 (by decide)).mpr (by decide)
  · intro ht
    have := (((year_filter_forms (yearProbe "1999") ">=2000").2 1999
      (by decide)).2.2.1 (by decide) 2000 (by decide)).mp ht
    exact absurd this (by decide)
  · exact (((year_filter_forms (yearProbe "2000") ">=2000").2 2000
      (by decide)).2.2.1 (by decide) 2000 (by decide)).mpr (by decide)
  · intro ht
    have := (((year_filter_forms (yearProbe "2000") "older").2 2000
      (by decide)).1 (by decide)).mp ht
    exact absurd this (by decide)
  · exact (year_filter_forms (yearProbe "abc") "1999").1 (by decide)

/-! ### C8 -/

lemma sortStep_length (sb ord : String) (ms : List Item) :
    (sortStep sb ord ms).length = ms.length := by
  unfold sortStep
  dsimp only
  split_ifs <;>
    first
      | rfl
      | exact (List.perm_insertionSort _ _).length_eq

/-- C8: the route clamps the page number to at least 1 and the page size
into the interval from 1 to 200, and a request whose page start lies at or
beyond the filtered catalog returns the empty item list together with the
exact count of filtered records. -/
theorem pagination_clamps_and_overflow :
    (∀ p : Int, 1 ≤ routePage p)
    ∧ (∀ pp : Int, 1 ≤ routePerPage pp ∧ routePerPage pp ≤ 200)
    ∧ (∀ (ms : List Item) (tq gq yq sb ord : String) (page perPage : Int),
        1 ≤ page → 1 ≤ perPage →
        ((applyFilters tq gq yq ms).length : Int) ≤ (page - 1) * perPage →
        slicePageCompute tq gq yq sb ord page perPage ms
          = ([], (applyFilters tq gq yq ms).length)) := by
  refine ⟨?_, ?_, ?_⟩
  · intro p
    unfold routePage
    exact le_max_right _ _
  · intro pp
    unfold routePerPage
    constructor
    · exact le_max_right _ _
    · rcases le_total pp 200 with h | h
      · rw [min_eq_left h]
        rcases le_total pp 1 with h2 | h2
        · rw [max_eq_right h2]; omega
        · rw [max_eq_left h2]; omega
      · rw [min_eq_right h]
        rw [max_eq_left (by omega)]
  · intro ms tq gq yq sb ord page perPage hpage hper hover
    unfold slicePageCompute
    dsimp only
    have hsl : (sortStep sb ord (applyFilters tq gq yq ms)).length
        = (applyFilters tq gq yq ms).length := sortStep_length _ _ _
    set sorted := sortStep sb ord (applyFilters tq gq yq ms) with hsorted
    have hstart0 : (0 : Int) ≤ (page - 1) * perPage :=
      mul_nonneg (by omega) (by omega)
    have hstartlen : (sorted.length : Int) ≤ (page - 1) * perPage := by
      rw [hsl]; exact hover
    have hidx : pySliceIdx sorted.length ((page - 1) * perPage) = sorted.length := by
      unfold pySliceIdx
      rw [if_neg (by omega)]
      refine min_eq_right ?_
      rw [← Int.toNat_of_nonneg hstart0] at hstartlen
      exact_mod_cast hstartlen
    have hslice : pySlice sorted ((page - 1) * perPage)
        ((page - 1) * perPage + perPage) = [] := by
      unfold pySlice
      rw [hidx]
      exact List.drop_eq_nil_of_le (by simp [List.length_take])
    rw [hslice, hsl]

/-- Witness for C8: page 5 of a 30-per-page unfiltered query over the
two-item catalog is empty with total 2, and the clamp bounds hold at
concrete raw parameters. -/
theorem pagination_clamps_and_overflow_witness :
    1 ≤ routePage (-7)
    ∧ (1 ≤ routePerPage 1000 ∧ routePerPage 1000 ≤ 200)
    ∧ slicePageCompute "" "" "" "rating" "desc" 5 30 (allMoviesOf twoMovieEngine)
        = ([], (applyFilters "" "" "" (allMoviesOf twoMovieEngine)).length) :=
  ⟨pagination_clamps_and_overflow.1 (-7),
   pagination_clamps_and_overflow.2.1 1000,
   pagination_clamps_and_overflow.2.2 (allMoviesOf twoMovieEngine) "" "" ""
     "rating" "desc" 5 30 (by decide) (by decide) (by decide)⟩

/-! ### C9 -/

lemma mem_metaFor {e : Engine} {ids : List Int} {sc : Option (List (WithBot ℚ))}
    {it : Item} (h : it ∈ metaFor e ids sc) :
    it.movieId ∈ ids ∧ it.avgRating = (avgRatingOf e it.movieId).getD 0 := by
  unfold metaFor at h
  rw [List.mem_filterMap] at h
  obtain ⟨p, hp, hf⟩ := h
  cases hfind : e.movies.find? (fun m => m.movieId == p.2) with
  | none => rw [hfind] at hf; simp at hf
  | some meta =>
      rw [hfind] at hf
      simp only [Option.some.injEq] at hf
      subst hf
      constructor
      · have hsnd : p.2 ∈ List.map Prod.snd ids.enum := List.mem_map_of_mem _ hp
        rw [List.enum_map_snd] at hsnd
        exact hsnd
      · rfl

/-- C9: every item hydrated by all_movies or by any successful
sample_movies call refers to a movieId with at least one rating row, and
its avgRating field is the rounded mean of that nonempty rating list; a
movie present only in the metadata table can never appear. -/
theorem catalog_items_have_ratings (e : Engine) (it : Item)
    (h : it ∈ allMoviesOf e ∨ ∃ n res, sampleMoviesOf e n = .ok res ∧ it ∈ res) :
    ratingsOf e it.movieId ≠ []
    ∧ it.avgRating
        = round2 ((ratingsOf e it.movieId).sum
            / ((ratingsOf e it.movieId).length : ℚ)) := by
  have hmain : it.movieId ∈ movieIdsOf e
      ∧ it.avgRating = (avgRatingOf e it.movieId).getD 0 := by
    rcases h with hall | ⟨n, res, hok, hres⟩
    · unfold allMoviesOf at hall
      exact mem_metaFor hall
    · unfold sampleMoviesOf npChoice at hok
      by_cases hn : n ≤ (movieIdsOf e).length
      · rw [if_pos hn] at hok
        have hres2 : res = metaFor e ((movieIdsOf e).take n) none := by
          cases hok; rfl
        subst hres2
        obtain ⟨h1, h2⟩ := mem_metaFor hres
        exact ⟨List.take_subset n _ h1, h2⟩
      · rw [if_neg hn] at hok
        cases hok
  obtain ⟨hmem, havg⟩ := hmain
  have hmem2 : it.movieId ∈ e.ratings.map (·.movieId) := by
    unfold movieIdsOf sortedUnique at hmem
    rw [(List.perm_insertionSort _ _).mem_iff] at hmem
    exact List.mem_dedup.mp hmem
  obtain ⟨r, hr, hrid⟩ := List.mem_map.mp hmem2
  have hrin : r ∈ e.ratings.filter (fun x => x.movieId == it.movieId) :=
    List.mem_filter.mpr ⟨hr, by simp [hrid]⟩
  have hne : ratingsOf e it.movieId ≠ [] := by
    unfold ratingsOf
    intro hnil
    rw [List.map_eq_nil_iff] at hnil
    rw [hnil] at hrin
    exact absurd hrin (List.not_mem_nil r)
  refine ⟨hne, ?_⟩
  have havg2 : avgRatingOf e it.movieId
      = some (round2 ((ratingsOf e it.movieId).sum
          / ((ratingsOf e it.movieId).length : ℚ))) := by
    unfold avgRatingOf
    have hfalse : (ratingsOf e it.movieId).isEmpty = false := by
      rw [List.isEmpty_eq_false]
      exact hne
    simp only [hfalse]
    rfl
  rw [havg, havg2]
  rfl

/-- A concrete hydrated item of the two-movie catalog. -/
def probeItem : Item :=
  ⟨1, "b", "1999", "Drama", 4, "http://x", none⟩

/-- Witness for C9 at a concrete catalog item. -/
theorem catalog_items_have_ratings_witness :
    ratingsOf twoMovieEngine probeItem.movieId ≠ []
    ∧ probeItem.avgRating
        = round2 ((ratingsOf twoMovieEngine probeItem.movieId).sum
            / ((ratingsOf twoMovieEngine probeItem.movieId).length : ℚ)) :=
  catalog_items_have_ratings twoMovieEngine probeItem (Or.inl (by decide))

/-! ### C6 -/

lemma movieIds_sorted_lt (e : Engine) : (movieIdsOf e).Pairwise (· < ·) := by
  have hs : (movieIdsOf e).Pairwise (fun a b => a ≤ b) :=
    List.sorted_insertionSort (fun a b => a ≤ b) _
  have hnd : (movieIdsOf e).Nodup := by
    unfold movieIdsOf sortedUnique
    exact ((List.perm_insertionSort _ _).nodup_iff).mpr (List.nodup_dedup _)
  exact (hs.and hnd).imp (fun h => lt_of_le_of_ne h.1 h.2)

lemma id2idx_get (e : Engine) (mid : Int) (i : Nat) (h : id2idx e mid = some i) :
    (movieIdsOf e).get? i = some mid := by
  unfold id2idx at h
  obtain ⟨hk, x, hx, hpx⟩ := findIdx?_some_spec (fun x => x == mid) (movieIdsOf e) i 0 h
  rw [Nat.sub_zero] at hx
  rw [beq_iff_eq] at hpx
  rwa [hpx] at hx

/-- C6 counterexample: with users 1 and 5 the source assigns dense row 4
to user 5 while the rank of userId 5 among the distinct userIds is 1, and
the matrix is allocated with 5 user rows for 2 distinct users — raw
identifiers are used directly as row indices. -/
theorem user_index_assignment_counterexample :
    (userRows gapUserEngine).get? 1 = some 4
    ∧ (specUserRows gapUserEngine).get? 1 = some (some 1)
    ∧ matrixShape gapUserEngine = (5, 2)
    ∧ ((4 : Int) ≠ (1 : Int)) := by
  refine ⟨by decide, by decide, by decide, by decide⟩

/-- C6 amended: item indices are assigned by rank in the ascending list
of distinct itemIds, exactly as claimed; the user side is not rank
compacted: the dense row index of every rating row is the raw userId
minus one. -/
theorem matrix_index_assignment (e : Engine) :
    (movieIdsOf e).Pairwise (· < ·)
    ∧ (∀ mid : Int, mid ∈ movieIdsOf e ↔ mid ∈ e.ratings.map (·.movieId))
    ∧ (∀ (mid : Int) (i : Nat), id2idx e mid = some i →
        (movieIdsOf e).get? i = some mid)
    ∧ userRows e = e.ratings.map (fun r => r.userId - 1) := by
  refine ⟨movieIds_sorted_lt e, ?_, ?_, rfl⟩
  · intro mid
    unfold movieIdsOf sortedUnique
    rw [(List.perm_insertionSort _ _).mem_iff]
    exact List.mem_dedup
  · intro mid i h
    exact id2idx_get e mid i h

/-- Witness for C6 amended at the gap-user fixture. -/
theorem matrix_index_assignment_witness :
    (movieIdsOf gapUserEngine).Pairwise (· < ·)
    ∧ (movieIdsOf gapUserEngine).get? 1 = some 20 :=
  ⟨(matrix_index_assignment gapUserEngine).1,
   (matrix_index_assignment gapUserEngine).2.2.1 20 1 (by decide)⟩

/-! ### C1 and C7: properties of the ranking -/

lemma argsort_perm (e : Engine) (rl : List RatingPair) :
    (argsortPreds e rl).Perm (List.range (predsEx e rl).length) :=
  List.perm_insertionSort _ _

lemma argsort_nodup (e : Engine) (rl : List RatingPair) :
    (argsortPreds e rl).Nodup :=
  ((argsort_perm e rl).nodup_iff).mpr (List.nodup_range _)

lemma argsort_sorted (e : Engine) (rl : List RatingPair) :
    (argsortPreds e rl).Pairwise (fun i j => predAt e rl i ≤ predAt e rl j) := by
  letI : IsTotal Nat (fun i j => predAt e rl i ≤ predAt e rl j) :=
    ⟨fun a b => le_total _ _⟩
  letI : IsTrans Nat (fun i j => predAt e rl i ≤ predAt e rl j) :=
    ⟨fun a b c hab hbc => le_trans hab hbc⟩
  exact List.sorted_insertionSort _ _

lemma argsort_mem_lt (e : Engine) (rl : List RatingPair) {i : Nat}
    (h : i ∈ argsortPreds e rl) : i < (movieIdsOf e).length := by
  have := List.mem_range.mp ((argsort_perm e rl).subset h)
  rwa [predsEx_length] at this

lemma predAt_spec (e : Engine) (rl : List RatingPair) (i : Nat)
    (hi : i < (movieIdsOf e).length) :
    predAt e rl i
      = (if (ratedIdx e rl).contains i then (⊥ : WithBot ℚ)
         else ((predsRaw e rl).getD i 0 : ℚ)) := by
  have hiP : i < (predsEx e rl).length := by rw [predsEx_length]; exact hi
  have hiR : i < (predsRaw e rl).length := by rw [predsRaw_length]; exact hi
  have hiE : i < (predsRaw e rl).enum.length := by rw [List.enum_length]; exact hiR
  unfold predAt
  rw [List.getD_eq_getElem?_getD, List.getElem?_eq_getElem hiP]
  unfold predsEx at hiP ⊢
  rw [@List.getElem_map _ _ _ _ _ hiP]
  rw [List.getElem_enum]
  rw [List.getD_eq_getElem?_getD, List.getElem?_eq_getElem hiR]
  rfl

lemma predAt_bot_iff (e : Engine) (rl : List RatingPair) (i : Nat)
    (hi : i < (movieIdsOf e).length) :
    predAt e rl i = ⊥ ↔ (ratedIdx e rl).contains i = true := by
  rw [predAt_spec e rl i hi]
  by_cases h : (ratedIdx e rl).contains i = true
  · simp [h]
  · simp only [Bool.not_eq_true] at h
    simp [h, WithBot.coe_ne_bot]

lemma pyLastSlice_sublist {α : Type} (l : List α) (k : Nat) :
    List.Sublist (pyLastSlice l k) l := by
  unfold pyLastSlice
  split
  · exact List.Sublist.refl l
  · exact List.drop_sublist _ _

lemma topIdx_unrated (e : Engine) (rl : List RatingPair) (topN : Nat)
    (htop : 1 ≤ topN)
    (hcount : topN ≤ (List.range (movieIdsOf e).length).countP
        (fun i => !((ratedIdx e rl).contains i))) :
    ∀ i ∈ topIdx e rl topN,
      i < (movieIdsOf e).length ∧ (ratedIdx e rl).contains i = false := by
  intro i hi
  unfold topIdx at hi
  rw [List.mem_reverse] at hi
  have hmemargs : i ∈ argsortPreds e rl := (pyLastSlice_sublist _ _).subset hi
  have hlt : i < (movieIdsOf e).length := argsort_mem_lt e rl hmemargs
  refine ⟨hlt, ?_⟩
  have hcnt : topN ≤ (argsortPreds e rl).countP
      (fun j => decide (predAt e rl j ≠ ⊥)) := by
    rw [(argsort_perm e rl).countP_eq]
    have hcong : (List.range (predsEx e rl).length).countP
        (fun j => decide (predAt e rl j ≠ ⊥))
        = (List.range (predsEx e rl).length).countP
            (fun j => !((ratedIdx e rl).contains j)) := by
      apply List.countP_congr
      intro j hj
      have hjlt : j < (movieIdsOf e).length := by
        have := List.mem_range.mp hj
        rwa [predsEx_length] at this
      simp only [decide_eq_true_eq, Bool.not_eq_true]
      constructor
      · intro hne
        cases hco : (ratedIdx e rl).contains j with
        | false => simp
        | true =>
            exact absurd ((predAt_bot_iff e rl j hjlt).mpr hco) (by simpa using hne)
      · intro hco
        have hco2 : (ratedIdx e rl).contains j = false := by simpa using hco
        intro hbot
        have := (predAt_bot_iff e rl j hjlt).mp hbot
        rw [hco2] at this
        cases this
    rw [hcong, predsEx_length]
    exact hcount
  have hne : predAt e rl i ≠ ⊥ := by
    have hmono : ∀ a b : Nat, (predAt e rl a ≤ predAt e rl b) →
        decide (predAt e rl a ≠ ⊥) = true → decide (predAt e rl b ≠ ⊥) = true := by
      intro a b hab ha
      simp only [decide_eq_true_eq] at ha ⊢
      intro hb
      rw [hb] at hab
      exact ha (WithBot.le_bot_iff.mp hab)
    have hdrop := pairwise_countP_drop hmono (argsortPreds e rl) topN
      (argsort_sorted e rl) hcnt
    have : pyLastSlice (argsortPreds e rl) topN
        = (argsortPreds e rl).drop ((argsortPreds e rl).length - topN) := by
      unfold pyLastSlice
      rw [if_neg (by omega)]
    rw [this] at hi
    have := hdrop i hi
    simpa using this
  cases hco : (ratedIdx e rl).contains i with
  | false => rfl
  | true => exact absurd ((predAt_bot_iff e rl i hlt).mpr hco) hne

lemma topIdx_length_le (e : Engine) (rl : List RatingPair) (topN : Nat)
    (htop : 1 ≤ topN) : (topIdx e rl topN).length ≤ topN := by
  unfold topIdx pyLastSlice
  rw [if_neg (by omega), List.length_reverse, List.length_drop]
  omega

lemma mem_movieIds_id2idx (e : Engine) (mid : Int) (h : mid ∈ movieIdsOf e) :
    ∃ j, id2idx e mid = some j := by
  cases hfi : id2idx e mid with
  | some j => exact ⟨j, rfl⟩
  | none =>
      unfold id2idx at hfi
      rw [List.findIdx?_eq_none_iff] at hfi
      have := hfi mid h
      simp at this

/-- C1 counterexample: over a two-movie catalog a six-pair rating list
covering both movies still yields recommendations (top_n = 10), and the
returned items are exactly the rated movies — the negative-infinity
exclusion cannot hold once fewer than top_n unrated items remain. -/
theorem recommend_exclusion_counterexample :
    sixPairsBoth.length = 6
    ∧ (recommendForNewUser twoMovieEngine sixPairsBoth 10 6).toOption.map
        (fun l => l.map (·.movieId)) = some [2, 1]
    ∧ (2 : Int) ∈ sixPairsBoth.map (·.movieId)
    ∧ (1 : Int) ∈ sixPairsBoth.map (·.movieId) := by
  refine ⟨by decide, by decide, by decide, by decide⟩

/-- C1 amended: for every rating list of length at least minRated, with a
positive topN and at least topN catalog items unrated, the call succeeds,
returns at most topN items, and none of them carries a movieId of the
input rating list. -/
theorem recommend_topn_and_exclusion (e : Engine) (rl : List RatingPair)
    (topN minRated : Nat) (hmin : minRated ≤ rl.length) (htop : 1 ≤ topN)
    (hcount : topN ≤ (List.range (movieIdsOf e).length).countP
        (fun i => !((ratedIdx e rl).contains i))) :
    ∃ items, recommendForNewUser e rl topN minRated = .ok items
      ∧ items.length ≤ topN
      ∧ ∀ it ∈ items, ∀ p ∈ rl, it.movieId ≠ p.movieId := by
  have hnotlt : ¬ rl.length < minRated := by omega
  refine ⟨metaFor e ((topIdx e rl topN).map (idx2id e))
      (some ((topIdx e rl topN).map (predAt e rl))), ?_, ?_, ?_⟩
  · unfold recommendForNewUser
    rw [if_neg hnotlt]
  · calc (metaFor e ((topIdx e rl topN).map (idx2id e))
        (some ((topIdx e rl topN).map (predAt e rl)))).length
        ≤ (((topIdx e rl topN).map (idx2id e)).enum).length := by
          unfold metaFor
          exact List.length_filterMap_le _ _
      _ = (topIdx e rl topN).length := by
          rw [List.enum_length, List.length_map]
      _ ≤ topN := topIdx_length_le e rl topN htop
  · intro it hit p hp heq
    obtain ⟨hmemids, _⟩ := mem_metaFor hit
    rw [List.mem_map] at hmemids
    obtain ⟨i, hti, hid⟩ := hmemids
    obtain ⟨hlt, hunrated⟩ := topIdx_unrated e rl topN htop hcount i hti
    have hget : (movieIdsOf e).get ⟨i, hlt⟩ = it.movieId := by
      unfold idx2id at hid
      rw [List.getD_eq_getElem?_getD, List.getElem?_eq_getElem hlt] at hid
      exact hid
    have hpmem : p.movieId ∈ movieIdsOf e := by
      rw [← heq, ← hget]
      exact List.get_mem _ _ hlt
    obtain ⟨j, hj⟩ := mem_movieIds_id2idx e p.movieId hpmem
    have hjget : (movieIdsOf e).get? j = some p.movieId := id2idx_get e p.movieId j hj
    have hjlt : j < (movieIdsOf e).length := by
      by_contra hge
      rw [List.get?_eq_getElem?, List.getElem?_eq_none (by omega)] at hjget
      cases hjget
    have hjv : (movieIdsOf e).get ⟨j, hjlt⟩ = p.movieId := by
      rw [List.get?_eq_getElem?, List.getElem?_eq_getElem hjlt] at hjget
      simpa using hjget
    have hij : i = j := by
      have hnd : (movieIdsOf e).Nodup := by
        unfold movieIdsOf sortedUnique
        exact ((List.perm_insertionSort _ _).nodup_iff).mpr (List.nodup_dedup _)
      have hgg : (movieIdsOf e).get ⟨i, hlt⟩ = (movieIdsOf e).get ⟨j, hjlt⟩ := by
        rw [hget, hjv, heq]
      exact (hnd.getElem_inj_iff).mp hgg
  -- i is rated: contradiction
    have hrated : i ∈ ratedIdx e rl := by
      unfold ratedIdx
      rw [List.mem_filterMap]
      exact ⟨p, hp, by rw [hj, hij]⟩
    have : (ratedIdx e rl).contains i = true := List.elem_iff.mpr hrated
    rw [hunrated] at this
    cases this

/-- Witness for C1 amended: the three-movie engine with six ratings of a
single movie, topN 2 and two unrated movies. -/
theorem recommend_topn_and_exclusion_witness :
    ∃ items, recommendForNewUser threeMovieEngine sixPairsOne 2 6 = .ok items
      ∧ items.length ≤ 2
      ∧ ∀ it ∈ items, ∀ p ∈ sixPairsOne, it.movieId ≠ p.movieId :=
  recommend_topn_and_exclusion threeMovieEngine sixPairsOne 2 6
    (by decide) (by decide) (by decide)

/-! ### C7 -/

lemma argsort_lex_pairwise (e : Engine) (rl : List RatingPair) :
    (argsortPreds e rl).Pairwise
      (fun i j => predAt e rl i ≤ predAt e rl j
        ∧ (predAt e rl i = predAt e rl j → i < j)) := by
  rw [List.pairwise_iff_forall_sublist]
  intro x y hsub
  constructor
  · exact (List.pairwise_iff_forall_sublist.mp (argsort_sorted e rl)) hsub
  · intro heq
    by_contra hnlt
    have hnd := argsort_nodup e rl
    have hxy : x ≠ y := by
      intro h
      subst h
      have hcnt := hsub.count_le x
      have hone := List.nodup_iff_count_le_one.mp hnd x
      simp at hcnt
      omega
    have hyx : y < x := by omega
    have hx_mem : x ∈ argsortPreds e rl := hsub.subset (by simp)
    have hx_lt : x < (predsEx e rl).length :=
      List.mem_range.mp ((argsort_perm e rl).subset hx_mem)
    have hfil : (List.range (predsEx e rl).length).filter
        (fun z => z == y || z == x) = [y, x] :=
      filter_range_pair y x hyx _ hx_lt
    have hsub2 : List.Sublist [y, x] (List.range (predsEx e rl).length) :=
      hfil ▸ List.filter_sublist _
    have hpw : List.Pairwise
        (fun i j => predAt e rl i ≤ predAt e rl j) [y, x] := by
      refine List.pairwise_cons.mpr ⟨?_, ?_⟩
      · intro b hb
        rw [List.mem_singleton] at hb
        subst hb
        exact le_of_eq heq.symm
      · exact List.pairwise_singleton _ _
    have hsub3 : List.Sublist [y, x] (argsortPreds e rl) := by
      unfold argsortPreds
      exact List.sublist_insertionSort hpw hsub2
    exact not_sublist_pair_swap hnd hxy hsub hsub3

/-- C7 counterexample: two items tie at a finite predicted score, yet the
ranking lists index 2 before index 1 (movieIds 3 then 2): equal scores
appear in descending item-index order, not the claimed ascending order. -/
theorem ranking_tie_order_counterexample :
    predAt threeMovieEngine sixPairsOne 1 = predAt threeMovieEngine sixPairsOne 2
    ∧ predAt threeMovieEngine sixPairsOne 1 ≠ ⊥
    ∧ topIdx threeMovieEngine sixPairsOne 2 = [2, 1]
    ∧ (recommendForNewUser threeMovieEngine sixPairsOne 2 6).toOption.map
        (fun l => l.map (·.movieId)) = some [3, 2] := by
  refine ⟨by decide, by decide, by decide, by decide⟩

/-- C7 amended: the ranking is descending by predicted score, and two
items with equal scores appear in descending item-index order, because
the stable ascending argsort output is reversed. -/
theorem ranking_tie_order (e : Engine) (rl : List RatingPair) (topN : Nat) :
    (topIdx e rl topN).Pairwise
      (fun i j => predAt e rl j ≤ predAt e rl i
        ∧ (predAt e rl i = predAt e rl j → j < i)) := by
  unfold topIdx
  rw [List.pairwise_reverse]
  have hlast : List.Pairwise
      (fun i j => predAt e rl i ≤ predAt e rl j
        ∧ (predAt e rl i = predAt e rl j → i < j))
      (pyLastSlice (argsortPreds e rl) topN) :=
    List.Pairwise.sublist (pyLastSlice_sublist _ _) (argsort_lex_pairwise e rl)
  exact hlast.imp (fun h => ⟨h.1, fun he => h.2 he.symm⟩)

/-- Witness for C7 amended at the concrete tie fixture. -/
theorem ranking_tie_order_witness :
    (topIdx threeMovieEngine sixPairsOne 2).Pairwise
      (fun i j => predAt threeMovieEngine sixPairsOne j
          ≤ predAt threeMovieEngine sixPairsOne i
        ∧ (predAt threeMovieEngine sixPairsOne i
            = predAt threeMovieEngine sixPairsOne j → j < i)) :=
  ranking_tie_order threeMovieEngine sixPairsOne 2

/-! ### C2: memoization, eviction and the shared-list mutation -/

lemma getSample_lru (env : AppEnv) (sample : String) (s : ServerState) :
    ((getSample env sample s).2).lru = s.lru := by
  unfold getSample
  split
  · split <;> rfl
  · split
    · rfl
    · split
      · rfl
      · split <;> rfl

/-- C2 amended: while a parameter tuple still has its entry in the
bounded cache (capacity 1024, least recently used evicted first) the
cached pair is returned unchanged; every call keeps the cache within
capacity.  Purity across arbitrary interleavings fails after eviction
(see the counterexample). -/
theorem slice_page_memoization :
    (∀ (env : AppEnv) (key : QueryKey) (s : ServerState) (v : List Item × Nat),
        s.lru.lookup key = some v → (slicePage env key s).1 = some v)
    ∧ (∀ (env : AppEnv) (key : QueryKey) (s : ServerState),
        s.lru.length ≤ LRU_CAPACITY →
        ((slicePage env key s).2).lru.length ≤ LRU_CAPACITY) := by
  constructor
  · intro env key s v h
    unfold slicePage
    rw [h]
  · intro env key s hlen
    unfold slicePage
    cases hl : s.lru.lookup key with
    | some v =>
        simp only [List.length_cons]
        have hm : (key, v) ∈ s.lru := lookup_some_mem hl
        have herase := @List.length_eraseP_add_one _
          (fun kv => kv.1 == key) s.lru (key, v) hm (by simp)
        omega
    | none =>
        cases hg : getSample env key.sample s with
        | mk o s1 =>
            have hlru1 : s1.lru = s.lru := by
              have := getSample_lru env key.sample s
              rw [hg] at this
              exact this
            cases o with
            | none =>
                rw [hlru1]
                exact hlen
            | some mvs =>
                simp only [List.length_take]
                exact min_le_left _ _

/-- Witness for C2 amended: a prefilled cache entry is served verbatim. -/
theorem slice_page_memoization_witness :
    (slicePage (appEnvOf twoMovieEngine)
      (⟨"all", "", "", "", "rating", "desc", 1, 30⟩ : QueryKey)
      ⟨[], [], [(⟨"all", "", "", "", "rating", "desc", 1, 30⟩, ([], 99))]⟩).1
      = some ([], 99) :=
  slice_page_memoization.1 (appEnvOf twoMovieEngine) _ _ _ (by decide)

/-- The app environment over the two-movie engine. -/
def envTwo : AppEnv := appEnvOf twoMovieEngine

/-- The unfiltered query sorted by rating descending. -/
def keyRatingDesc : QueryKey := ⟨"all", "", "", "", "rating", "desc", 1, 30⟩

/-- The unfiltered query sorted by title ascending. -/
def keyTitleAsc : QueryKey := ⟨"all", "", "", "", "title", "asc", 1, 30⟩

/-- Cache-filling queries: a never-matching title filter and a varying
page number, so each key is fresh, computes an empty page and never
touches the shared catalog list. -/
def fillerKey (i : Nat) : QueryKey := ⟨"all", "zz", "", "", "rating", "desc", (i : Int), 30⟩

/-- twoMovieEngine catalog entry with title b (first in catalog order). -/
def itemTitleB : Item := ⟨1, "b", "1999", "Drama", 4, "http://x", none⟩

/-- twoMovieEngine catalog entry with title a (second in catalog order). -/
def itemTitleA : Item := ⟨2, "a", "1999", "Drama", 4, "http://x", none⟩

/-- The cache entries produced by the first j filler queries. -/
def fillerPairs (j : Nat) : List (QueryKey × (List Item × Nat)) :=
  (List.range j).map (fun i => (fillerKey i, (([] : List Item), 0)))

/-- The two cache entries of the first two real queries, most recent
first. -/
def twoTail : List (QueryKey × (List Item × Nat)) :=
  [(keyTitleAsc, ([itemTitleA, itemTitleB], 2)),
   (keyRatingDesc, ([itemTitleB, itemTitleA], 2))]

/-- The module state after the rating query and then the title query: the
title sort has re-sorted the shared ALL_MOVIES list in place. -/
def stateAfterTwo : ServerState :=
  ⟨[itemTitleA, itemTitleB], [], twoTail⟩

lemma fillerKey_inj {i j : Nat} (h : fillerKey i = fillerKey j) : i = j := by
  have := congrArg QueryKey.page h
  simpa [fillerKey] using this

lemma fillerKey_ne_ratingDesc (i : Nat) : fillerKey i ≠ keyRatingDesc := by
  intro h
  have h2 : ("zz" : String) = "" := congrArg QueryKey.search h
  exact absurd h2 (by decide)

lemma fillerKey_ne_titleAsc (i : Nat) : fillerKey i ≠ keyTitleAsc := by
  intro h
  have h2 : ("zz" : String) = "" := congrArg QueryKey.search h
  exact absurd h2 (by decide)

lemma filler_fresh (j : Nat) :
    (((fillerPairs j).reverse ++ twoTail).take LRU_CAPACITY).lookup (fillerKey j)
      = none := by
  apply lookup_eq_none_of_not_mem_keys
  intro hmem
  have hmem2 : fillerKey j ∈ (((fillerPairs j).reverse ++ twoTail).map Prod.fst) := by
    have hsub : List.Sublist (((fillerPairs j).reverse ++ twoTail).take LRU_CAPACITY)
        ((fillerPairs j).reverse ++ twoTail) := List.take_sublist _ _
    exact (hsub.map Prod.fst).subset hmem
  rw [List.map_append, List.mem_append] at hmem2
  rcases hmem2 with hfil | htail
  · rw [List.map_reverse, List.mem_reverse] at hfil
    unfold fillerPairs at hfil
    rw [List.map_map] at hfil
    obtain ⟨i, hi, hkey⟩ := List.mem_map.mp hfil
    have : i = j := fillerKey_inj (by simpa using hkey)
    have := List.mem_range.mp hi
    omega
  · unfold twoTail at htail
    simp only [List.map_cons, List.map_nil, List.mem_cons, List.mem_singleton] at htail
    rcases htail with h | h | h
    · exact fillerKey_ne_titleAsc j h
    · exact fillerKey_ne_ratingDesc j h
    · cases h

lemma final_fresh :
    (((fillerPairs 1023).reverse
        ++ [(keyTitleAsc, ([itemTitleA, itemTitleB], 2))]).lookup keyRatingDesc)
      = none := by
  apply lookup_eq_none_of_not_mem_keys
  intro hmem
  rw [List.map_append, List.mem_append] at hmem
  rcases hmem with hfil | htail
  · rw [List.map_reverse, List.mem_reverse] at hfil
    unfold fillerPairs at hfil
    rw [List.map_map] at hfil
    obtain ⟨i, _, hkey⟩ := List.mem_map.mp hfil
    exact fillerKey_ne_ratingDesc i (by simpa using hkey)
  · simp only [List.map_cons, List.map_nil, List.mem_cons, List.mem_singleton] at htail
    rcases htail with h | h
    · exact absurd (congrArg QueryKey.sortBy h) (by decide)
    · cases h

lemma pySlice_nil {α : Type} (a b : Int) : pySlice ([] : List α) a b = [] := by
  unfold pySlice
  simp

lemma slicePage_miss (env : AppEnv) (key : QueryKey) (s s1 : ServerState)
    (mvs : List Item) (hlook : s.lru.lookup key = none)
    (hg : getSample env key.sample s = (some mvs, s1)) :
    slicePage env key s
      = (let sorted := sortStep key.sortBy key.order
            (applyFilters key.search key.genre key.year mvs)
         let start := (key.page - 1) * key.perPage
         let result := (pySlice sorted start (start + key.perPage), sorted.length)
         let s2 := if noFilters key then writeBack key.sample sorted s1 else s1
         (some result, { s2 with lru := ((key, result) :: s2.lru).take LRU_CAPACITY })) := by
  unfold slicePage
  rw [hlook, hg]

lemma getSample_all_built (env : AppEnv) (s : ServerState)
    (hall : s.allMovies = [itemTitleA, itemTitleB]) :
    getSample env "all" s = (some [itemTitleA, itemTitleB], s) := by
  unfold getSample
  rw [if_pos rfl, hall]
  rw [if_neg (by decide)]

lemma filler_step (j : Nat) (s : ServerState)
    (hall : s.allMovies = [itemTitleA, itemTitleB])
    (hlook : s.lru.lookup (fillerKey j) = none) :
    slicePage envTwo (fillerKey j) s
      = (some ([], 0),
         { s with lru := ((fillerKey j, ([], 0)) :: s.lru).take LRU_CAPACITY }) := by
  have hg : getSample envTwo (fillerKey j).sample s = (some [itemTitleA, itemTitleB], s) :=
    getSample_all_built envTwo s hall
  rw [slicePage_miss envTwo (fillerKey j) s s [itemTitleA, itemTitleB] hlook hg]
  dsimp only
  have happ : applyFilters (fillerKey j).search (fillerKey j).genre (fillerKey j).year
      [itemTitleA, itemTitleB] = [] := by
    show applyFilters "zz" "" "" [itemTitleA, itemTitleB] = []
    decide
  rw [happ]
  have hsort : sortStep (fillerKey j).sortBy (fillerKey j).order ([] : List Item) = [] := by
    show sortStep "rating" "desc" ([] : List Item) = []
    decide
  rw [hsort, pySlice_nil]
  have hnof : noFilters (fillerKey j) = false := rfl
  rw [if_neg (by simp [hnof])]
  rfl

lemma run_fillers (j : Nat) (hj : j ≤ 1023) :
    runQueries envTwo ((List.range j).map fillerKey) stateAfterTwo
      = { allMovies := [itemTitleA, itemTitleB], sampleCache := [],
          lru := (((fillerPairs j).reverse ++ twoTail).take LRU_CAPACITY) } := by
  induction j with
  | zero =>
      show stateAfterTwo = _
      decide
  | succ m ih =>
      have hm : m ≤ 1023 := by omega
      have hstate := ih hm
      have happend : (List.range (m + 1)).map fillerKey
          = (List.range m).map fillerKey ++ [fillerKey m] := by
        rw [List.range_succ, List.map_append]
        rfl
      unfold runQueries at hstate ⊢
      rw [happend, List.foldl_append, hstate]
      simp only [List.foldl_cons, List.foldl_nil]
      have hfresh : ((((fillerPairs m).reverse ++ twoTail).take LRU_CAPACITY).lookup
          (fillerKey m)) = none := filler_fresh m
      rw [filler_step m _ rfl hfresh]
      dsimp only
      congr 1
      rw [take_cons_take]
      have hrev : (fillerPairs (m + 1)).reverse
          = (fillerKey m, (([] : List Item), 0)) :: (fillerPairs m).reverse := by
        unfold fillerPairs
        rw [List.range_succ, List.map_append, List.reverse_append]
        rfl
      rw [hrev]
      rfl

lemma fillerPairs_length (j : Nat) : (fillerPairs j).length = j := by
  unfold fillerPairs
  rw [List.length_map, List.length_range]

lemma final_state_lru :
    (((fillerPairs 1023).reverse ++ twoTail).take LRU_CAPACITY)
      = (fillerPairs 1023).reverse ++ [(keyTitleAsc, ([itemTitleA, itemTitleB], 2))] := by
  have hlen : ((fillerPairs 1023).reverse).length = 1023 := by
    rw [List.length_reverse, fillerPairs_length]
  have hcap : LRU_CAPACITY = ((fillerPairs 1023).reverse).length + 1 := by
    rw [hlen]
    decide
  rw [hcap, List.take_append]
  rfl

set_option maxRecDepth 10000 in
/-- C2 counterexample: the identical tuple keyRatingDesc is queried
twice; in between, the title-ascending query re-sorts the shared catalog
list in place and 1023 distinct filler queries evict the memoized entry.
The second identical call recomputes on the mutated list and returns the
page in the opposite order: slice_page is not a pure function of its
parameter tuple. -/
theorem slice_page_purity_counterexample :
    (slicePage envTwo keyRatingDesc ServerState.init).1
        = some ([itemTitleB, itemTitleA], 2)
    ∧ (slicePage envTwo keyRatingDesc
        (runQueries envTwo ((List.range 1023).map fillerKey)
          (slicePage envTwo keyTitleAsc
            (slicePage envTwo keyRatingDesc ServerState.init).2).2)).1
        = some ([itemTitleA, itemTitleB], 2)
    ∧ (some ([itemTitleB, itemTitleA], 2)
        ≠ some (([itemTitleA, itemTitleB], 2) : List Item × Nat)) := by
  refine ⟨by decide, ?_, by decide⟩
  have htwo : (slicePage envTwo keyTitleAsc
      (slicePage envTwo keyRatingDesc ServerState.init).2).2 = stateAfterTwo := by
    decide
  rw [htwo, run_fillers 1023 (by omega), final_state_lru]
  have hlook : ((fillerPairs 1023).reverse
      ++ [(keyTitleAsc, ([itemTitleA, itemTitleB], 2))]).lookup keyRatingDesc
      = none := final_fresh
  have hg : getSample envTwo keyRatingDesc.sample
      ({ allMovies := [itemTitleA, itemTitleB], sampleCache := [],
         lru := (fillerPairs 1023).reverse
           ++ [(keyTitleAsc, ([itemTitleA, itemTitleB], 2))] } : ServerState)
      = (some [itemTitleA, itemTitleB], _) :=
    getSample_all_built envTwo _ rfl
  rw [slicePage_miss envTwo keyRatingDesc _ _ [itemTitleA, itemTitleB] hlook hg]
  dsimp only
  rw [show applyFilters keyRatingDesc.search keyRatingDesc.genre keyRatingDesc.year
      [itemTitleA, itemTitleB] = [itemTitleA, itemTitleB] from by decide]
  rw [show sortStep keyRatingDesc.sortBy keyRatingDesc.order [itemTitleA, itemTitleB]
      = [itemTitleA, itemTitleB] from by decide]
  rw [show pySlice [itemTitleA, itemTitleB]
      ((keyRatingDesc.page - 1) * keyRatingDesc.perPage)
      ((keyRatingDesc.page - 1) * keyRatingDesc.perPage + keyRatingDesc.perPage)
      = [itemTitleA, itemTitleB] from by decide]
  rfl

end MainResults

end CineMatch
